import Mathlib

/-!
Shallow embedding of the core of the `keyboard` repository (a browser app
rendering an animated 3D mechanical keyboard) and proofs about it.

Sources embedded here:
- `src/Key.js` : keycap geometry synthesis (`createRealisticKeycapGeometry`),
  press/release state machine, per-frame position update and underglow
  lighting update;
- `src/Keyboard.js` : the board assembly (`pressKey`, `releaseKey`,
  `updateKeyLabels`) over the layout's key map;
- `src/KeyboardLayout.js` : the static layout table and unit constants;
- `src/SettingsManager.js` : the lighting-settings store
  (`setLightingBrightness`, `getLightingSettings`, `getKeycapLabel`).

JavaScript numbers are modelled as exact rationals (`ℚ`) where the code uses
only field operations, and as reals (`ℝ`) where it calls `Math.sqrt` /
`Math.sin` (the full vertex transform).  Strings are Lean `String`s.
-/

/-! ## Layout constants (`src/KeyboardLayout.js`) -/

/-- `KEY_UNIT = 0.019` : 19mm per grid unit. -/
def KEY_UNIT : ℚ := 19/1000

/-- `KEY_GAP = 0.0015` : 1.5mm gap between keys. -/
def KEY_GAP : ℚ := 3/2000

/-- One entry of `KEYBOARD_LAYOUT`: code, label, width (grid units),
grid position (x, y), color-role tag. -/
structure KeySpec where
  code : String
  label : String
  width : ℚ
  x : ℚ
  y : ℚ
  color : String
deriving DecidableEq, Repr

/-- The static 65% layout table `KEYBOARD_LAYOUT` of `src/KeyboardLayout.js`
(the variant whose palette `Key.js` references via `COLORS.alphaKeys`).
Shift labels are omitted: no embedded operation reads them. -/
def KEYBOARD_LAYOUT : List KeySpec := [
  ⟨"Escape", "Esc", 1, 0, 0, "accentTeal"⟩,
  ⟨"Digit1", "1", 1, 1, 0, "alphaKeys"⟩,
  ⟨"Digit2", "2", 1, 2, 0, "alphaKeys"⟩,
  ⟨"Digit3", "3", 1, 3, 0, "alphaKeys"⟩,
  ⟨"Digit4", "4", 1, 4, 0, "alphaKeys"⟩,
  ⟨"Digit5", "5", 1, 5, 0, "alphaKeys"⟩,
  ⟨"Digit6", "6", 1, 6, 0, "alphaKeys"⟩,
  ⟨"Digit7", "7", 1, 7, 0, "alphaKeys"⟩,
  ⟨"Digit8", "8", 1, 8, 0, "alphaKeys"⟩,
  ⟨"Digit9", "9", 1, 9, 0, "alphaKeys"⟩,
  ⟨"Digit0", "0", 1, 10, 0, "alphaKeys"⟩,
  ⟨"Minus", "-", 1, 11, 0, "alphaKeys"⟩,
  ⟨"Equal", "=", 1, 12, 0, "alphaKeys"⟩,
  ⟨"Backspace", "⌫", 2, 13, 0, "modKeys"⟩,
  ⟨"Home", "Home", 1, 15, 0, "modKeys"⟩,
  ⟨"Tab", "⇥", 3/2, 0, 1, "modKeys"⟩,
  ⟨"KeyQ", "Q", 1, 3/2, 1, "alphaKeys"⟩,
  ⟨"KeyW", "W", 1, 5/2, 1, "alphaKeys"⟩,
  ⟨"KeyE", "E", 1, 7/2, 1, "alphaKeys"⟩,
  ⟨"KeyR", "R", 1, 9/2, 1, "alphaKeys"⟩,
  ⟨"KeyT", "T", 1, 11/2, 1, "alphaKeys"⟩,
  ⟨"KeyY", "Y", 1, 13/2, 1, "alphaKeys"⟩,
  ⟨"KeyU", "U", 1, 15/2, 1, "alphaKeys"⟩,
  ⟨"KeyI", "I", 1, 17/2, 1, "alphaKeys"⟩,
  ⟨"KeyO", "O", 1, 19/2, 1, "alphaKeys"⟩,
  ⟨"KeyP", "P", 1, 21/2, 1, "alphaKeys"⟩,
  ⟨"BracketLeft", "[", 1, 23/2, 1, "alphaKeys"⟩,
  ⟨"BracketRight", "]", 1, 25/2, 1, "alphaKeys"⟩,
  ⟨"Backslash", "\\", 3/2, 27/2, 1, "modKeys"⟩,
  ⟨"PageUp", "PgUp", 1, 15, 1, "modKeys"⟩,
  ⟨"CapsLock", "⇪", 7/4, 0, 2, "modKeys"⟩,
  ⟨"KeyA", "A", 1, 7/4, 2, "alphaKeys"⟩,
  ⟨"KeyS", "S", 1, 11/4, 2, "alphaKeys"⟩,
  ⟨"KeyD", "D", 1, 15/4, 2, "alphaKeys"⟩,
  ⟨"KeyF", "F", 1, 19/4, 2, "alphaKeys"⟩,
  ⟨"KeyG", "G", 1, 23/4, 2, "alphaKeys"⟩,
  ⟨"KeyH", "H", 1, 27/4, 2, "alphaKeys"⟩,
  ⟨"KeyJ", "J", 1, 31/4, 2, "alphaKeys"⟩,
  ⟨"KeyK", "K", 1, 35/4, 2, "alphaKeys"⟩,
  ⟨"KeyL", "L", 1, 39/4, 2, "alphaKeys"⟩,
  ⟨"Semicolon", ";", 1, 43/4, 2, "alphaKeys"⟩,
  ⟨"Quote", "\x27", 1, 47/4, 2, "alphaKeys"⟩,
  ⟨"Enter", "↵", 9/4, 51/4, 2, "accentOrange"⟩,
  ⟨"PageDown", "PgDn", 1, 15, 2, "modKeys"⟩,
  ⟨"ShiftLeft", "⇧", 9/4, 0, 3, "modKeys"⟩,
  ⟨"KeyZ", "Z", 1, 9/4, 3, "alphaKeys"⟩,
  ⟨"KeyX", "X", 1, 13/4, 3, "alphaKeys"⟩,
  ⟨"KeyC", "C", 1, 17/4, 3, "alphaKeys"⟩,
  ⟨"KeyV", "V", 1, 21/4, 3, "alphaKeys"⟩,
  ⟨"KeyB", "B", 1, 25/4, 3, "alphaKeys"⟩,
  ⟨"KeyN", "N", 1, 29/4, 3, "alphaKeys"⟩,
  ⟨"KeyM", "M", 1, 33/4, 3, "alphaKeys"⟩,
  ⟨"Comma", ",", 1, 37/4, 3, "alphaKeys"⟩,
  ⟨"Period", ".", 1, 41/4, 3, "alphaKeys"⟩,
  ⟨"Slash", "/", 1, 45/4, 3, "alphaKeys"⟩,
  ⟨"ShiftRight", "⇧", 7/4, 49/4, 3, "modKeys"⟩,
  ⟨"ArrowUp", "↑", 1, 14, 3, "modKeys"⟩,
  ⟨"End", "End", 1, 15, 3, "modKeys"⟩,
  ⟨"ControlLeft", "⌃", 5/4, 0, 4, "modKeys"⟩,
  ⟨"MetaLeft", "⌘", 5/4, 5/4, 4, "modKeys"⟩,
  ⟨"AltLeft", "⌥", 5/4, 5/2, 4, "modKeys"⟩,
  ⟨"Space", "", 25/4, 15/4, 4, "accentYellow"⟩,
  ⟨"AltRight", "⌥", 1, 10, 4, "modKeys"⟩,
  ⟨"MetaRight", "⌘", 1, 11, 4, "modKeys"⟩,
  ⟨"Fn", "Fn", 1, 12, 4, "modKeys"⟩,
  ⟨"ArrowLeft", "←", 1, 13, 4, "modKeys"⟩,
  ⟨"ArrowDown", "↓", 1, 14, 4, "modKeys"⟩,
  ⟨"ArrowRight", "→", 1, 15, 4, "modKeys"⟩]

/-! ## Keycap dimensions and taper (`src/Key.js`, constructor and
`createRealisticKeycapGeometry`, lines 16-19 and 103-114) -/

/-- `const keyWidth = (this.width * KEY_UNIT) - KEY_GAP` (Key.js:16). -/
def keyWidthOf (w : ℚ) : ℚ := w * KEY_UNIT - KEY_GAP

/-- `const keyDepth = KEY_UNIT - KEY_GAP` (Key.js:17). -/
def keyDepthVal : ℚ := KEY_UNIT - KEY_GAP

/-- `const taperOffset = 0.0015` (Key.js:19). -/
def taperOffsetVal : ℚ := 15/10000

/-- The per-vertex taper scale of `createRealisticKeycapGeometry`
(Key.js:106-111): with `currentTaper = t * taperOffset`, the X scale is
`(halfW - currentTaper) / halfW` and the Z scale is the same formula with
`halfD`.  `half` is the half-dimension, `taper` the taper offset, `t` the
normalized height (0 at the base, 1 at the top).  The code applies this
expression with no clamping. -/
def taperScale (half taper t : ℚ) : ℚ := (half - t * taper) / half

/-! ## Key press/release state (`src/Key.js`, `press` lines 328-345,
`release` lines 347-361, position part of `update` lines 363-373)

The mutable per-key fields touched by `press`/`release`/`update`:
`isPressed`, `targetY`, the group's y position, the keycap material color
(as the HSL triple that `press` manipulates via `getHSL`/`setHSL`), and the
underglow opacity.  `originalY` and the original color (`colorH/S/L`) are
set once at construction and never mutated by these methods. -/

structure KeyState where
  isPressed : Bool
  targetY : ℚ
  posY : ℚ
  originalY : ℚ
  colorH : ℚ
  colorS : ℚ
  colorL : ℚ
  matH : ℚ
  matS : ℚ
  matL : ℚ
  underglowOpacity : ℚ
deriving DecidableEq, Repr

/-- `Key.press` (Key.js:328-345): early-returns if already pressed;
otherwise sets `isPressed`, `targetY = originalY - 0.003`, lightens the
material color to `setHSL(h, s, min(1, l + 0.2))` of the original color,
and sets the underglow opacity to `0.9`. -/
def Key.press (k : KeyState) : KeyState :=
  if k.isPressed then k
  else
    { k with
      isPressed := true
      targetY := k.originalY - 3/1000
      matH := k.colorH
      matS := k.colorS
      matL := min 1 (k.colorL + 1/5)
      underglowOpacity := 9/10 }

/-- `Key.release` (Key.js:347-361): early-returns if not pressed; otherwise
clears `isPressed`, sets `targetY = originalY`, restores the original
material color, and sets the underglow opacity to `0.25`. -/
def Key.release (k : KeyState) : KeyState :=
  if !k.isPressed then k
  else
    { k with
      isPressed := false
      targetY := k.originalY
      matH := k.colorH
      matS := k.colorS
      matL := k.colorL
      underglowOpacity := 1/4 }

/-- The position-animation step of `Key.update` (Key.js:363-373): with
`speed = 30` and `diff = targetY - y`, if `|diff| > 0.0001` then
`y += diff * speed * deltaTime`, else `y = targetY` (exact snap). -/
def keyStep (targetY dt y : ℚ) : ℚ :=
  if 1/10000 < |targetY - y| then y + (targetY - y) * 30 * dt else targetY

/-- `n` repeated calls of the position-animation step of `Key.update` with
a constant `deltaTime`. -/
def keyIter (targetY dt y : ℚ) : ℕ → ℚ
  | 0 => y
  | n + 1 => keyStep targetY dt (keyIter targetY dt y n)

/-! ## Lighting settings store (`src/SettingsManager.js`, lines 262-297)

The module-level `lightingSettings` object and its setters, modelled by
explicit state passing.  `getLightingSettings` returns a value copy
(`{ ...lightingSettings }`), which in this value semantics is the identity. -/

structure LightingSettings where
  enabled : Bool
  brightness : ℚ
  color : String
  effect : String
deriving DecidableEq, Repr

/-- The initial `lightingSettings` object (SettingsManager.js:262-267). -/
def initialLightingSettings : LightingSettings :=
  ⟨false, 50, "#00ffff", "cycle"⟩

/-- `getLightingSettings` (SettingsManager.js:269-271). -/
def getLightingSettings (s : LightingSettings) : LightingSettings := s

/-- `setLightingEnabled` (SettingsManager.js:273-276). -/
def setLightingEnabled (b : Bool) (s : LightingSettings) : LightingSettings :=
  { s with enabled := b }

/-- `setLightingBrightness` (SettingsManager.js:278-281):
`lightingSettings.brightness = Math.max(0, Math.min(100, brightness))`. -/
def setLightingBrightness (b : ℚ) (s : LightingSettings) : LightingSettings :=
  { s with brightness := max 0 (min 100 b) }

/-- `setLightingColor` (SettingsManager.js:283-286). -/
def setLightingColor (c : String) (s : LightingSettings) : LightingSettings :=
  { s with color := c }

/-- `setLightingEffect` (SettingsManager.js:288-291). -/
def setLightingEffect (e : String) (s : LightingSettings) : LightingSettings :=
  { s with effect := e }

/-- One call to any of the four exported lighting setters. -/
inductive LightingOp where
  | setEnabled (b : Bool)
  | setBrightness (b : ℚ)
  | setColor (c : String)
  | setEffect (e : String)

/-- Apply one setter call to the settings state. -/
def applyLightingOp (s : LightingSettings) : LightingOp → LightingSettings
  | .setEnabled b => setLightingEnabled b s
  | .setBrightness b => setLightingBrightness b s
  | .setColor c => setLightingColor c s
  | .setEffect e => setLightingEffect e s

/-- The settings state after an arbitrary sequence of setter calls starting
from the module's initial state — every state the program can observe. -/
def runLightingOps (ops : List LightingOp) : LightingSettings :=
  ops.foldl applyLightingOp initialLightingSettings

/-- `baseOpacity` of `Key.update` (Key.js:386):
`0.1 + (settings.brightness / 100) * 0.8`. -/
def baseOpacity (s : LightingSettings) : ℚ :=
  1/10 + s.brightness / 100 * (8/10)

/-! ## Underglow lighting update (`src/Key.js`, `update` lines 376-450)

The per-frame lighting section of `Key.update`, as a function of the
settings snapshot, the press state, the key's grid position, `deltaTime`
and the key's accumulator/underglow state.  `Math.sin`/`Math.PI` force this
over `ℝ`.  `THREE.Color` values are kept as the data the code feeds them:
either a CSS color string (`color.set(settings.color)`) or an HSL triple
(`setHSL(h, s, l)`). -/

inductive GlowColor where
  | css (s : String)
  | hsl (h sat l : ℝ)

/-- The mutable per-key lighting state: the phase accumulators
(`pulseTime`, `hue`/`hueSpeed`, `reactiveGlow`, `geminiTime`) and the
underglow material's opacity and color. -/
structure GlowState where
  pulseTime : ℝ
  hue : ℝ
  hueSpeed : ℝ
  reactiveGlow : ℝ
  geminiTime : ℝ
  opacity : ℝ
  glowColor : GlowColor

/-- JavaScript `%` (remainder, truncating the quotient toward zero). -/
noncomputable def jsRem (a b : ℝ) : ℝ :=
  a - b * (if 0 ≤ a / b then (⌊a / b⌋ : ℝ) else (⌈a / b⌉ : ℝ))

/-- The lighting section of `Key.update` (Key.js:376-450): if the snapshot
has `enabled = false`, force opacity to 0 and return; otherwise dispatch on
the effect tag exactly as the `switch` does. -/
noncomputable def lightingUpdate (settings : LightingSettings) (isPressed : Bool)
    (x y dt : ℝ) (st : GlowState) : GlowState :=
  if !settings.enabled then
    { st with opacity := 0 }
  else
    let brightness : ℝ := (settings.brightness : ℝ)
    let baseOp : ℝ := ((baseOpacity settings : ℚ) : ℝ)
    let pressOp : ℝ := if isPressed then 19/20 else baseOp
    if settings.effect = "stable" then
      { st with glowColor := .css settings.color, opacity := pressOp }
    else if settings.effect = "pulse" then
      let pulseTime := st.pulseTime + dt
      let pulse := (Real.sin (pulseTime * Real.pi * 2 / (3/2)) + 1) / 2
      let op := (1/5 + pulse * (3/5)) * (brightness / 100)
      { st with pulseTime := pulseTime, glowColor := .css settings.color,
                opacity := if isPressed then 19/20 else op }
    else if settings.effect = "cycle" then
      let hue := jsRem (st.hue + st.hueSpeed * dt) 1
      { st with hue := hue, glowColor := .hsl hue (9/10) (1/2),
                opacity := pressOp }
    else if settings.effect = "reactive" then
      let glow : ℝ := if isPressed then 1 else st.reactiveGlow * (92/100)
      { st with reactiveGlow := glow, glowColor := .css settings.color,
                opacity := glow * (brightness / 100) * (9/10) }
    else if settings.effect = "gemini" then
      let geminiTime := st.geminiTime + dt * (8/10)
      let wavePhase := geminiTime + x * (1/2) + y * (3/10)
      let geminiHue := 11/20 + Real.sin wavePhase * (3/20)
      let geminiSat := 17/20 + Real.sin (wavePhase * (3/2)) * (1/10)
      let geminiLight := 1/2 + Real.sin (wavePhase * 2) * (1/10)
      let waveOp := baseOp * (4/5 + Real.sin (wavePhase * (3/2)) * (1/5))
      { st with geminiTime := geminiTime,
                glowColor := .hsl geminiHue geminiSat geminiLight,
                opacity := if isPressed then 19/20 else waveOp }
    else
      { st with opacity := pressOp }

/-- `n` lighting ticks with the key not pressed (the decay phase of the
reactive effect after release). -/
noncomputable def lightingIterReleased (settings : LightingSettings)
    (x y dt : ℝ) (st : GlowState) : ℕ → GlowState
  | 0 => st
  | n + 1 => lightingUpdate settings false x y dt
      (lightingIterReleased settings x y dt st n)

/-- A sample per-key lighting state as built by the `Key` constructor
(Key.js:62-67, with the `Math.random()` start hue taken as 0) and
`createUnderglow` (opacity 0.35, white). -/
noncomputable def glowState0 : GlowState :=
  ⟨0, 0, 1/10, 0, 0, 35/100, .css "#ffffff"⟩

/-- A sample settings snapshot with lighting enabled and the reactive
effect selected. -/
def reactiveSettings : LightingSettings :=
  ⟨true, 50, "#00ffff", "reactive"⟩

/-! ## Keyboard assembly (`src/Keyboard.js`)

The assembly's `this.keys` is a `Map` from code to `Key`, filled by
`createKeys` in layout order.  It is modelled as an association list with
pairwise-distinct codes (`Map` keys are unique); `get` finds the first
binding.  `pressKey`/`releaseKey` (identical in every `Keyboard` variant in
the repository, e.g. Keyboard.js:176-188) look the code up and forward to
the key, doing nothing when the code is absent. -/

/-- `Keyboard.pressKey` (Keyboard.js:176-181): `const key =
this.keys.get(code); if (key) key.press()`. -/
def Keyboard.pressKey (keys : List (String × KeyState)) (code : String) :
    List (String × KeyState) :=
  match keys with
  | [] => []
  | p :: rest =>
    if p.1 = code then (p.1, Key.press p.2) :: rest
    else p :: Keyboard.pressKey rest code

/-- `Keyboard.releaseKey` (Keyboard.js:183-188): `const key =
this.keys.get(code); if (key) key.release()`. -/
def Keyboard.releaseKey (keys : List (String × KeyState)) (code : String) :
    List (String × KeyState) :=
  match keys with
  | [] => []
  | p :: rest =>
    if p.1 = code then (p.1, Key.release p.2) :: rest
    else p :: Keyboard.releaseKey rest code

/-- The press-relevant state of a freshly constructed key as `createKeys`
(Keyboard.js:451-470) leaves it: not pressed, resting at
`keyBaseY = caseBaseHeight + plateHeight = 0.016` with `targetY =
originalY`, underglow opacity `0.35`.  The color triple (produced by the
library call `THREE.Color.getHSL` on the palette color) is left at an
arbitrary fixed value; no embedded claim depends on it. -/
def initKeyState : KeyState :=
  { isPressed := false
    targetY := 2/125
    posY := 2/125
    originalY := 2/125
    colorH := 0
    colorS := 0
    colorL := 0
    matH := 0
    matS := 0
    matL := 0
    underglowOpacity := 35/100 }

/-- The assembly's key map, one entry per layout record in layout order
(`createKeys`, Keyboard.js:451-470). -/
def Keyboard.keys : List (String × KeyState) :=
  KEYBOARD_LAYOUT.map fun e => (e.code, initKeyState)

/-! ## Legends and relabeling (`src/Key.js` `updateLabel` lines 270-326,
`src/Keyboard.js` `updateKeyLabels` lines 496-508,
`src/SettingsManager.js` `getKeycapLabel` lines 242-259)

For the relabel claims a key carries its code, its current label, the
identity of its keycap geometry object (`geomId`) and the identity of its
installed legend texture (`legendTex`, `none` when the key has no legend
mesh — e.g. the label-less spacebar).  Texture identities are drawn from a
counter in `TexStore`, which also records every texture passed to
`.dispose()`. -/

structure KeyObj where
  code : String
  label : String
  geomId : ℕ
  legendTex : Option ℕ
deriving DecidableEq, Repr

structure TexStore where
  nextTex : ℕ
  disposed : List ℕ
deriving DecidableEq, Repr

/-- `Key.updateLabel` (Key.js:270-326): early-returns when the key has no
legend mesh; otherwise renders a new `CanvasTexture`, disposes the
previously installed texture (`this.legendMesh.material.map.dispose()`),
and installs the new one.  The geometry is never touched. -/
def Key.updateLabel (store : TexStore) (k : KeyObj) (newLabel : String) :
    TexStore × KeyObj :=
  match k.legendTex with
  | none => (store, k)
  | some old =>
      (⟨store.nextTex + 1, old :: store.disposed⟩,
       { k with label := newLabel, legendTex := some store.nextTex })

/-- `KEYCAP_LABELS_MACOS` (SettingsManager.js:242-247). -/
def KEYCAP_LABELS_MACOS : List (String × String) :=
  [("MetaLeft", "⌘"), ("MetaRight", "⌘"), ("AltLeft", "⌥"), ("AltRight", "⌥")]

/-- `KEYCAP_LABELS_WINDOWS` (SettingsManager.js:249-254). -/
def KEYCAP_LABELS_WINDOWS : List (String × String) :=
  [("MetaLeft", "⊞"), ("MetaRight", "⊞"), ("AltLeft", "Alt"), ("AltRight", "Alt")]

/-- `getKeycapLabel` (SettingsManager.js:256-259):
`labels[code] || defaultLabel` over the layout-dependent table (every table
entry is a non-empty string, so `||` is exactly lookup-with-default). -/
def getKeycapLabel (currentLayout : String) (code dflt : String) : String :=
  let labels := if currentLayout = "macos" then KEYCAP_LABELS_MACOS
                else KEYCAP_LABELS_WINDOWS
  (labels.lookup code).getD dflt

/-- The fixed target list `keysToUpdate` of `updateKeyLabels`
(Keyboard.js:498). -/
def keysToUpdate : List String := ["MetaLeft", "MetaRight", "AltLeft", "AltRight"]

/-- `KEYBOARD_LAYOUT.find(k => k.code === code)?.label || ''`
(Keyboard.js:503-504). -/
def layoutLabelOf (code : String) : String :=
  ((KEYBOARD_LAYOUT.find? fun k => k.code = code).map KeySpec.label).getD ""

/-- One `updateKeyLabels` loop iteration: `this.keys.get(code)` (first
binding in the map) and, when found, `key.updateLabel(newLabel)`; absent
codes are skipped. -/
def updateKeyInMap (store : TexStore) (keys : List KeyObj) (code newLabel : String) :
    TexStore × List KeyObj :=
  match keys with
  | [] => (store, [])
  | k :: rest =>
    if k.code = code then
      let p := Key.updateLabel store k newLabel
      (p.1, p.2 :: rest)
    else
      let p := updateKeyInMap store rest code newLabel
      (p.1, k :: p.2)

/-- The `updateKeyLabels` loop generalized over the target-code list. -/
def relabelFold (currentLayout : String) (targets : List String)
    (store : TexStore) (keys : List KeyObj) : TexStore × List KeyObj :=
  targets.foldl
    (fun acc code =>
      updateKeyInMap acc.1 acc.2 code
        (getKeycapLabel currentLayout code (layoutLabelOf code)))
    (store, keys)

/-- `Keyboard.updateKeyLabels` (Keyboard.js:496-508): for each code in
`keysToUpdate`, look the key up and regenerate its legend from the current
OS layout's keycap label. -/
def Keyboard.updateKeyLabels (currentLayout : String) (store : TexStore)
    (keys : List KeyObj) : TexStore × List KeyObj :=
  relabelFold currentLayout keysToUpdate store keys

/-- The assembly as built from the layout: one `KeyObj` per record, the
geometry ids in layout order, a legend texture allocated exactly for the
keys with a non-empty label (`if (this.label)` in the `Key` constructor,
Key.js:53-60). -/
def buildAssembly : TexStore × List KeyObj :=
  KEYBOARD_LAYOUT.foldl
    (fun acc e =>
      if e.label = "" then
        (acc.1, acc.2 ++ [⟨e.code, e.label, acc.2.length, none⟩])
      else
        (⟨acc.1.nextTex + 1, acc.1.disposed⟩,
         acc.2 ++ [⟨e.code, e.label, acc.2.length, some acc.1.nextTex⟩]))
    (⟨0, []⟩, [])

/-! ## Full keycap vertex transform (`src/Key.js`,
`createRealisticKeycapGeometry`, lines 80-177)

The builder subdivides a `THREE.BoxGeometry(width, height, depth, 16, 16,
16)` — library code, its vertex grid enters here as the `verts` argument —
and displaces each vertex in place: taper, rounded vertical corners
(`Math.sqrt` forces `ℝ`), top scoop for non-spacebar keys, convex bulge for
the spacebar, then shifts everything up by `halfH`.  The "soften the top
side edges" block (Key.js:140-150) computes values but its assignment is
commented out in the source, so it changes no state and is omitted.
`Math.sign` is `Real.sign` (both map 0 to 0). -/

noncomputable def transformVertex (code : String) (width depth height taperOffset : ℝ)
    (v : ℝ × ℝ × ℝ) : ℝ × ℝ × ℝ :=
  let halfW := width / 2
  let halfD := depth / 2
  let halfH := height / 2
  let cornerRadius : ℝ := 12/10000
  let topEdgeRadius : ℝ := 8/10000
  let scoopDepth : ℝ := 6/10000
  let y0 := v.2.1
  let t := (y0 + halfH) / height
  let currentTaper := t * taperOffset
  let taperScaleX := (halfW - currentTaper) / halfW
  let taperScaleZ := (halfD - currentTaper) / halfD
  let x1 := v.1 * taperScaleX
  let z1 := v.2.2 * taperScaleZ
  let currentW := halfW - currentTaper
  let currentD := halfD - currentTaper
  let innerW := currentW - cornerRadius
  let innerD := currentD - cornerRadius
  let xz :=
    if |x1| > innerW ∧ |z1| > innerD then
      let dx := |x1| - innerW
      let dz := |z1| - innerD
      let dist := Real.sqrt (dx * dx + dz * dz)
      if dist > cornerRadius then
        ((innerW + dx * (cornerRadius / dist)) * Real.sign x1,
         (innerD + dz * (cornerRadius / dist)) * Real.sign z1)
      else (x1, z1)
    else (x1, z1)
  let x2 := xz.1
  let z2 := xz.2
  let y1 :=
    if y0 > halfH - topEdgeRadius * 2 ∧ code ≠ "Space" ∧ y0 > halfH * (9/10)
        ∧ y0 > halfH * (95/100) then
      let normX := x2 / (currentW - cornerRadius)
      let scoopEffect := max 0 (1 - normX * normX)
      y0 - scoopEffect * scoopDepth
    else y0
  let y2 :=
    if code = "Space" ∧ y1 > 0 then
      let normZ := z2 / (currentD - cornerRadius)
      let convexEffect := max 0 (1 - normZ * normZ)
      y1 + convexEffect * (15/10000)
    else y1
  (x2, y2 + halfH, z2)

/-- `createRealisticKeycapGeometry` (Key.js:80-177): the per-vertex
displacement applied to every vertex of the subdivided box.  The function
reads nothing but its arguments and `this.code`; it contains no randomness. -/
noncomputable def createRealisticKeycapGeometry (code : String)
    (width depth height taperOffset : ℝ) (verts : List (ℝ × ℝ × ℝ)) :
    List (ℝ × ℝ × ℝ) :=
  verts.map (transformVertex code width depth height taperOffset)

/-- With a positive half-dimension and a nonneg taper offset, the taper
scale at the top does not exceed the scale at the bottom. -/
theorem taperScale_mono (half taper : ℚ) (hhalf : 0 < half) (htaper : 0 ≤ taper) :
    taperScale half taper 1 ≤ taperScale half taper 0 := by
  have h : taperScale half taper 0 - taperScale half taper 1 = taper / half := by
    field_simp [taperScale]
  linarith [h, div_nonneg htaper hhalf.le]

/-- Every layout entry's width is at least one grid unit. -/
theorem layout_width_ge_one : ∀ e ∈ KEYBOARD_LAYOUT, 1 ≤ e.width := by
  intro e he
  fin_cases he <;> norm_num

/-- C2: Taper invariant.  For every layout entry, the taper scale of
`createRealisticKeycapGeometry` at the top (`t = 1`) is at most the scale at
the bottom (`t = 0`), for both the width (X) and the depth (Z) direction,
with the constructor's dimensions `keyWidth = width * KEY_UNIT - KEY_GAP`,
`keyDepth = KEY_UNIT - KEY_GAP` and `taperOffset = 0.0015` — hence the top
cross-section never exceeds the bottom cross-section. -/
theorem taperScale_top_le_bottom (e : KeySpec) (he : e ∈ KEYBOARD_LAYOUT) :
    taperScale (keyWidthOf e.width / 2) taperOffsetVal 1
      ≤ taperScale (keyWidthOf e.width / 2) taperOffsetVal 0 ∧
    taperScale (keyDepthVal / 2) taperOffsetVal 1
      ≤ taperScale (keyDepthVal / 2) taperOffsetVal 0 := by
  have hw : 1 ≤ e.width := layout_width_ge_one e he
  have hnum : 0 < keyWidthOf e.width := by
    simp only [keyWidthOf, KEY_UNIT, KEY_GAP]
    nlinarith
  constructor
  · exact taperScale_mono _ _ (by positivity) (by norm_num [taperOffsetVal])
  · exact taperScale_mono _ _ (by norm_num [keyDepthVal, KEY_UNIT, KEY_GAP])
      (by norm_num [taperOffsetVal])

/-- Witness for C2: the first layout entry (`Escape`). -/
theorem taperScale_top_le_bottom_witness :
    (⟨"Escape", "Esc", 1, 0, 0, "accentTeal"⟩ : KeySpec) ∈ KEYBOARD_LAYOUT ∧
    (taperScale (keyWidthOf (⟨"Escape", "Esc", 1, 0, 0, "accentTeal"⟩ : KeySpec).width / 2)
        taperOffsetVal 1
      ≤ taperScale (keyWidthOf (⟨"Escape", "Esc", 1, 0, 0, "accentTeal"⟩ : KeySpec).width / 2)
        taperOffsetVal 0 ∧
    taperScale (keyDepthVal / 2) taperOffsetVal 1
      ≤ taperScale (keyDepthVal / 2) taperOffsetVal 0) :=
  ⟨by unfold KEYBOARD_LAYOUT; exact List.mem_cons_self _ _,
   taperScale_top_le_bottom ⟨"Escape", "Esc", 1, 0, 0, "accentTeal"⟩
     (by unfold KEYBOARD_LAYOUT; exact List.mem_cons_self _ _)⟩

/-- C3: Degenerate-dimension safety fails in the code.  The geometry builder
performs no clamping of the taper: for a near-zero width of `0.002` (so
`halfW = 0.001 < taperOffset = 0.0015`), the taper scale at the top is
`-1/2`, i.e. strictly negative — the geometry is inverted.  (The code's own
comment at Key.js:109, "ensure we don't invert the geometry", and the
spec's required clamp are both contradicted; the `Math.max(0.001, ...)`
floor at Key.js:47-48 exists only on the legend path, not the geometry
path.) -/
theorem taperScale_negative_at_degenerate_width :
    taperScale ((1 : ℚ)/1000) taperOffsetVal 1 = -(1/2) ∧
    taperScale ((1 : ℚ)/1000) taperOffsetVal 1 < 0 := by
  constructor <;> norm_num [taperScale, taperOffsetVal]

/-- C5: Idempotence of press and release.  For every key state, pressing
twice leaves the full state (`isPressed`, `targetY`, material color,
underglow opacity — the whole `KeyState`) identical to pressing once, and
likewise for releasing twice. -/
theorem press_release_idempotent (k : KeyState) :
    Key.press (Key.press k) = Key.press k ∧
    Key.release (Key.release k) = Key.release k := by
  constructor <;> cases hk : k.isPressed <;>
    simp [Key.press, Key.release, hk]

/-- C4 counterexample: the convergence claim fails for `dt = 0.1`.
Starting from `y = 0` with `targetY = -0.003` (a fresh press), the distance
to the target exceeds the `0.0001` epsilon, yet one `update(0.1)` step
moves `y` to `-0.009`, growing the distance from `0.003` to `0.006` instead
of strictly reducing it (and the iteration diverges thereafter). -/
theorem keyStep_diverges_at_dt_tenth :
    (1/10000 : ℚ) < |(-3/1000 : ℚ) - 0| ∧
    keyStep (-3/1000) (1/10) 0 = -9/1000 ∧
    ¬ |(-3/1000 : ℚ) - keyStep (-3/1000) (1/10) 0| < |(-3/1000 : ℚ) - 0| := by
  have h : |(-3/1000 : ℚ) - 0| = 3/1000 := by
    rw [sub_zero, abs_of_neg] <;> norm_num
  have hs : keyStep (-3/1000 : ℚ) (1/10) 0 = -9/1000 := by
    rw [keyStep, if_pos (by rw [h]; norm_num)]
    norm_num
  refine ⟨by rw [h]; norm_num, hs, ?_⟩
  rw [hs, h]
  have : |(-3/1000 : ℚ) - -9/1000| = 6/1000 := by
    rw [abs_of_nonneg] <;> norm_num
  rw [this]
  norm_num

/-- C4 (amended): Press-animation convergence for frame steps with
`speed * dt < 2`.  For every fixed `targetY`, start `y0`, and constant
`dt` with `0 < dt < 1/15`, each step taken while the distance to the target
exceeds the `0.0001` epsilon strictly reduces that distance, and after some
bounded number `N` of steps the position is snapped exactly to `targetY`
and remains there on every subsequent step. -/
theorem keyUpdate_convergence (targetY y0 dt : ℚ)
    (hdt0 : 0 < dt) (hdt1 : dt < 1/15) :
    (∀ y, 1/10000 < |targetY - y| →
        |targetY - keyStep targetY dt y| < |targetY - y|) ∧
    ∃ N, ∀ m, N ≤ m → keyIter targetY dt y0 m = targetY := by
  set r : ℚ := |1 - 30 * dt| with hr
  have hr0 : 0 ≤ r := abs_nonneg _
  have hr1 : r < 1 := by
    rw [hr, abs_lt]
    constructor <;> linarith
  have hstep : ∀ y, 1/10000 < |targetY - y| →
      |targetY - keyStep targetY dt y| = |targetY - y| * r := by
    intro y hy
    rw [keyStep, if_pos hy]
    have hexp : targetY - (y + (targetY - y) * 30 * dt)
        = (targetY - y) * (1 - 30 * dt) := by ring
    rw [hexp, abs_mul, hr]
  have hcontract : ∀ y, 1/10000 < |targetY - y| →
      |targetY - keyStep targetY dt y| < |targetY - y| := by
    intro y hy
    rw [hstep y hy]
    have hpos : 0 < |targetY - y| := lt_trans (by norm_num) hy
    calc |targetY - y| * r < |targetY - y| * 1 :=
          (mul_lt_mul_left hpos).mpr hr1
      _ = |targetY - y| := mul_one _
  refine ⟨hcontract, ?_⟩
  have hsnap : ∀ y, ¬ 1/10000 < |targetY - y| → keyStep targetY dt y = targetY := by
    intro y hy
    rw [keyStep, if_neg hy]
  have hfixpt : keyStep targetY dt targetY = targetY := by
    apply hsnap
    simp
  have hstay : ∀ n k, keyIter targetY dt y0 n = targetY →
      keyIter targetY dt y0 (n + k) = targetY := by
    intro n k h
    induction k with
    | zero => exact h
    | succ k ih =>
      have : n + (k + 1) = (n + k) + 1 := by omega
      rw [this]
      show keyStep targetY dt (keyIter targetY dt y0 (n + k)) = targetY
      rw [ih, hfixpt]
  have hbound : ∀ n, keyIter targetY dt y0 n = targetY ∨
      |targetY - keyIter targetY dt y0 n| ≤ |targetY - y0| * r ^ n := by
    intro n
    induction n with
    | zero => right; simp [keyIter]
    | succ n ih =>
      rcases ih with h | h
      · left
        show keyStep targetY dt (keyIter targetY dt y0 n) = targetY
        rw [h, hfixpt]
      · by_cases hc : 1/10000 < |targetY - keyIter targetY dt y0 n|
        · right
          show |targetY - keyStep targetY dt (keyIter targetY dt y0 n)| ≤ _
          rw [hstep _ hc]
          calc |targetY - keyIter targetY dt y0 n| * r
              ≤ (|targetY - y0| * r ^ n) * r := mul_le_mul_of_nonneg_right h hr0
            _ = |targetY - y0| * r ^ (n + 1) := by ring
        · left
          show keyStep targetY dt (keyIter targetY dt y0 n) = targetY
          exact hsnap _ hc
  obtain ⟨n, hn⟩ : ∃ n, |targetY - y0| * r ^ n < 1/10000 := by
    rcases eq_or_lt_of_le (abs_nonneg (targetY - y0)) with h0 | h0
    · exact ⟨0, by rw [← h0]; norm_num⟩
    · obtain ⟨n, hn⟩ :=
        exists_pow_lt_of_lt_one (x := (1/10000) / |targetY - y0|) (by positivity) hr1
      refine ⟨n, ?_⟩
      have := (lt_div_iff₀ h0).mp hn
      linarith [this]
  rcases hbound n with h | h
  · refine ⟨n, fun m hm => ?_⟩
    have : m = n + (m - n) := by omega
    rw [this]
    exact hstay n (m - n) h
  · have hle : ¬ 1/10000 < |targetY - keyIter targetY dt y0 n| := by
      push_neg
      linarith [h, hn]
    have hN : keyIter targetY dt y0 (n + 1) = targetY := by
      show keyStep targetY dt (keyIter targetY dt y0 n) = targetY
      exact hsnap _ hle
    refine ⟨n + 1, fun m hm => ?_⟩
    have : m = (n + 1) + (m - (n + 1)) := by omega
    rw [this]
    exact hstay (n + 1) (m - (n + 1)) hN

/-- Witness for C4 (amended): `dt = 1/60` (a 60 fps frame), a fresh press
from rest. -/
theorem keyUpdate_convergence_witness :
    ((0 : ℚ) < 1/60 ∧ (1/60 : ℚ) < 1/15) ∧
    ((∀ y, 1/10000 < |(-3/1000 : ℚ) - y| →
        |(-3/1000 : ℚ) - keyStep (-3/1000) (1/60) y| < |(-3/1000 : ℚ) - y|) ∧
    ∃ N, ∀ m, N ≤ m → keyIter (-3/1000) (1/60) 0 m = -3/1000) :=
  ⟨⟨by norm_num, by norm_num⟩,
   keyUpdate_convergence (-3/1000) 0 (1/60) (by norm_num) (by norm_num)⟩

/-- C6: Lighting-disabled invariant.  For every settings snapshot with
`enabled = false` — any effect tag, brightness, color — every press state,
grid position, `deltaTime` and lighting state, the per-frame lighting
update outputs underglow opacity 0. -/
theorem lighting_disabled_opacity_zero (settings : LightingSettings)
    (isPressed : Bool) (x y dt : ℝ) (st : GlowState)
    (h : settings.enabled = false) :
    (lightingUpdate settings isPressed x y dt st).opacity = 0 := by
  simp [lightingUpdate, h]

/-- Witness for C6: the initial settings (lighting off), a pressed key. -/
theorem lighting_disabled_opacity_zero_witness :
    initialLightingSettings.enabled = false ∧
    (lightingUpdate initialLightingSettings true 0 0 (1/60) glowState0).opacity = 0 :=
  ⟨rfl, lighting_disabled_opacity_zero initialLightingSettings true 0 0 (1/60)
      glowState0 rfl⟩

/-- C7: Reactive effect dynamics.  With lighting enabled and the
`"reactive"` effect: a tick while pressed sets the glow to 1.0 and outputs
opacity `1.0 * (brightness/100) * 0.9`; a tick after release multiplies the
glow by the constant 0.92 — the resulting glow does not depend on `dt` —
and outputs `glow * (brightness/100) * 0.9`; hence over `n` released ticks
the glow is `reactiveGlow * 0.92 ^ n` and the opacity decays geometrically
toward 0. -/
theorem reactive_effect_dynamics (settings : LightingSettings)
    (x y dt : ℝ) (st : GlowState)
    (hen : settings.enabled = true) (heff : settings.effect = "reactive") :
    ((lightingUpdate settings true x y dt st).reactiveGlow = 1 ∧
     (lightingUpdate settings true x y dt st).opacity
        = 1 * ((settings.brightness : ℝ) / 100) * (9/10)) ∧
    ((lightingUpdate settings false x y dt st).reactiveGlow
        = st.reactiveGlow * (92/100) ∧
     (lightingUpdate settings false x y dt st).opacity
        = st.reactiveGlow * (92/100) * ((settings.brightness : ℝ) / 100) * (9/10)) ∧
    (∀ dt2 : ℝ, (lightingUpdate settings false x y dt2 st).reactiveGlow
        = (lightingUpdate settings false x y dt st).reactiveGlow) ∧
    (∀ n, (lightingIterReleased settings x y dt st n).reactiveGlow
        = st.reactiveGlow * (92/100) ^ n) ∧
    (∀ n, (lightingIterReleased settings x y dt st (n + 1)).opacity
        = st.reactiveGlow * (92/100) ^ (n + 1)
            * ((settings.brightness : ℝ) / 100) * (9/10)) := by
  have hglow : ∀ (dt2 : ℝ) (s2 : GlowState),
      (lightingUpdate settings false x y dt2 s2).reactiveGlow
        = s2.reactiveGlow * (92/100) := by
    intro dt2 s2
    simp [lightingUpdate, hen, heff]
  have hop : ∀ (dt2 : ℝ) (s2 : GlowState),
      (lightingUpdate settings false x y dt2 s2).opacity
        = s2.reactiveGlow * (92/100) * ((settings.brightness : ℝ) / 100) * (9/10) := by
    intro dt2 s2
    simp [lightingUpdate, hen, heff]
  have hiter : ∀ n, (lightingIterReleased settings x y dt st n).reactiveGlow
      = st.reactiveGlow * (92/100) ^ n := by
    intro n
    induction n with
    | zero => simp [lightingIterReleased]
    | succ n ih =>
      rw [lightingIterReleased, hglow, ih]
      ring
  refine ⟨⟨?_, ?_⟩, ⟨hglow dt st, hop dt st⟩, fun dt2 => ?_, hiter, fun n => ?_⟩
  · simp [lightingUpdate, hen, heff]
  · simp [lightingUpdate, hen, heff]
  · rw [hglow, hglow]
  · rw [lightingIterReleased, hop, hiter]
    ring

/-- Witness for C7: enabled reactive settings at brightness 50, a fresh key
state, dt = 1/60. -/
theorem reactive_effect_dynamics_witness :
    (reactiveSettings.enabled = true ∧ reactiveSettings.effect = "reactive") ∧
    (((lightingUpdate reactiveSettings true 0 0 (1/60) glowState0).reactiveGlow = 1 ∧
     (lightingUpdate reactiveSettings true 0 0 (1/60) glowState0).opacity
        = 1 * ((reactiveSettings.brightness : ℝ) / 100) * (9/10)) ∧
    ((lightingUpdate reactiveSettings false 0 0 (1/60) glowState0).reactiveGlow
        = glowState0.reactiveGlow * (92/100) ∧
     (lightingUpdate reactiveSettings false 0 0 (1/60) glowState0).opacity
        = glowState0.reactiveGlow * (92/100)
            * ((reactiveSettings.brightness : ℝ) / 100) * (9/10)) ∧
    (∀ dt2 : ℝ, (lightingUpdate reactiveSettings false 0 0 dt2 glowState0).reactiveGlow
        = (lightingUpdate reactiveSettings false 0 0 (1/60) glowState0).reactiveGlow) ∧
    (∀ n, (lightingIterReleased reactiveSettings 0 0 (1/60) glowState0 n).reactiveGlow
        = glowState0.reactiveGlow * (92/100) ^ n) ∧
    (∀ n, (lightingIterReleased reactiveSettings 0 0 (1/60) glowState0 (n + 1)).opacity
        = glowState0.reactiveGlow * (92/100) ^ (n + 1)
            * ((reactiveSettings.brightness : ℝ) / 100) * (9/10))) :=
  ⟨⟨rfl, rfl⟩, reactive_effect_dynamics reactiveSettings 0 0 (1/60) glowState0 rfl rfl⟩

/-- C10: Implicit brightness clamp invariant.  `setLightingBrightness b`
stores `max 0 (min 100 b)` for every rational `b` (including out-of-range
values), so after any sequence of setter calls from the initial state, the
snapshot returned by `getLightingSettings` has brightness within `[0, 100]`
and the derived `baseOpacity = 0.1 + 0.8 * (brightness / 100)` within
`[0.1, 0.9]`. -/
theorem brightness_always_clamped :
    (∀ (s : LightingSettings) (b : ℚ),
      setLightingBrightness b s = { s with brightness := max 0 (min 100 b) }) ∧
    (∀ ops : List LightingOp,
      0 ≤ (getLightingSettings (runLightingOps ops)).brightness ∧
      (getLightingSettings (runLightingOps ops)).brightness ≤ 100 ∧
      1/10 ≤ baseOpacity (getLightingSettings (runLightingOps ops)) ∧
      baseOpacity (getLightingSettings (runLightingOps ops)) ≤ 9/10) := by
  have hfold : ∀ (ops : List LightingOp) (s : LightingSettings),
      0 ≤ s.brightness → s.brightness ≤ 100 →
      0 ≤ (ops.foldl applyLightingOp s).brightness ∧
        (ops.foldl applyLightingOp s).brightness ≤ 100 := by
    intro ops
    induction ops with
    | nil => intro s h0 h1; exact ⟨h0, h1⟩
    | cons op rest ih =>
      intro s h0 h1
      apply ih
      · cases op <;>
          simp [applyLightingOp, setLightingEnabled, setLightingBrightness,
            setLightingColor, setLightingEffect, le_max_iff, h0]
      · cases op <;>
          simp [applyLightingOp, setLightingEnabled, setLightingBrightness,
            setLightingColor, setLightingEffect, max_le_iff, min_le_iff, h1]
  refine ⟨fun s b => rfl, fun ops => ?_⟩
  obtain ⟨h0, h1⟩ := hfold ops initialLightingSettings (by norm_num [initialLightingSettings])
    (by norm_num [initialLightingSettings])
  refine ⟨h0, h1, ?_, ?_⟩ <;>
    simp only [getLightingSettings, runLightingOps, baseOpacity] at h0 h1 ⊢ <;>
    linarith

/-- C8: Unknown key code is a no-op.  For a code bound to no key in the
assembly's key map, `Keyboard.pressKey` and `Keyboard.releaseKey` return
(they are total functions) and leave every key — the whole map — unchanged. -/
theorem pressKey_unknown_code_noop (keys : List (String × KeyState)) (code : String)
    (h : ∀ p ∈ keys, p.1 ≠ code) :
    Keyboard.pressKey keys code = keys ∧ Keyboard.releaseKey keys code = keys := by
  induction keys with
  | nil => exact ⟨rfl, rfl⟩
  | cons p rest ih =>
    have hp : p.1 ≠ code := h p (List.mem_cons_self _ _)
    have hrest := ih fun q hq => h q (List.mem_cons_of_mem _ hq)
    rw [Keyboard.pressKey, Keyboard.releaseKey]
    rw [if_neg hp, if_neg hp, hrest.1, hrest.2]
    exact ⟨rfl, rfl⟩

/-- Witness for C8: the full board built from the layout and the unmapped
code `"NumpadEnter"`. -/
theorem pressKey_unknown_code_noop_witness :
    (∀ p ∈ Keyboard.keys, p.1 ≠ "NumpadEnter") ∧
    (Keyboard.pressKey Keyboard.keys "NumpadEnter" = Keyboard.keys ∧
     Keyboard.releaseKey Keyboard.keys "NumpadEnter" = Keyboard.keys) := by
  have pf : ∀ p ∈ Keyboard.keys, p.1 ≠ "NumpadEnter" := by
    intro p hp
    simp only [Keyboard.keys, List.mem_map] at hp
    obtain ⟨e, he, rfl⟩ := hp
    fin_cases he <;> simp
  exact ⟨pf, pressKey_unknown_code_noop Keyboard.keys "NumpadEnter" pf⟩

/-- One relabel pass (`updateKeyInMap`): codes are preserved, the texture
counter grows, disposals accumulate, freshness is preserved, and pointwise:
geometry and code are untouched, keys with a different code are wholly
untouched, and the key with the target code has its old legend texture
disposed and replaced by a fresh, distinct one. -/
theorem updateKeyInMap_spec (store : TexStore) (keys : List KeyObj) (code lbl : String)
    (hnodup : (keys.map KeyObj.code).Nodup)
    (hfresh : ∀ k ∈ keys, ∀ t, k.legendTex = some t → t < store.nextTex) :
    ((updateKeyInMap store keys code lbl).2.map KeyObj.code = keys.map KeyObj.code) ∧
    store.nextTex ≤ (updateKeyInMap store keys code lbl).1.nextTex ∧
    (∀ t ∈ store.disposed, t ∈ (updateKeyInMap store keys code lbl).1.disposed) ∧
    (∀ k2 ∈ (updateKeyInMap store keys code lbl).2, ∀ t, k2.legendTex = some t →
        t < (updateKeyInMap store keys code lbl).1.nextTex) ∧
    List.Forall₂ (fun k k2 =>
        k2.code = k.code ∧ k2.geomId = k.geomId ∧
        (k.code ≠ code → k2 = k) ∧
        (k.code = code → ∀ t, k.legendTex = some t →
            t ∈ (updateKeyInMap store keys code lbl).1.disposed ∧
            k2.legendTex ≠ some t ∧ k2.legendTex.isSome = true))
      keys (updateKeyInMap store keys code lbl).2 := by
  induction keys with
  | nil =>
    have hred : updateKeyInMap store [] code lbl = (store, []) := rfl
    rw [hred]
    exact ⟨rfl, le_refl _, fun t ht => ht, by simp, List.Forall₂.nil⟩
  | cons k rest ih =>
    rw [List.map_cons, List.nodup_cons] at hnodup
    obtain ⟨hknot, hrestnodup⟩ := hnodup
    have hfk := hfresh k (List.mem_cons_self _ _)
    have hfrest : ∀ q ∈ rest, ∀ t, q.legendTex = some t → t < store.nextTex :=
      fun q hq => hfresh q (List.mem_cons_of_mem _ hq)
    by_cases hc : k.code = code
    · simp only [updateKeyInMap, if_pos hc]
      have hresttail : ∀ x ∈ rest, x.code ≠ code := by
        intro x hx hxc
        apply hknot
        rw [hc, ← hxc]
        exact List.mem_map_of_mem KeyObj.code hx
      cases hlt : k.legendTex with
      | none =>
        have hred : Key.updateLabel store k lbl = (store, k) := by
          simp [Key.updateLabel, hlt]
        rw [hred]
        refine ⟨rfl, le_refl _, fun t ht => ht, ?_, ?_⟩
        · intro k2 hk2 t ht
          rcases List.mem_cons.mp hk2 with rfl | hk2
          · rw [hlt] at ht
            exact absurd ht (by simp)
          · exact hfrest k2 hk2 t ht
        · refine List.Forall₂.cons ⟨rfl, rfl, fun _ => rfl, ?_⟩ ?_
          · intro _ t ht
            rw [hlt] at ht
            exact absurd ht (by simp)
          · rw [List.forall₂_same]
            intro x hx
            exact ⟨rfl, rfl, fun _ => rfl, fun hxc => absurd hxc (hresttail x hx)⟩
      | some old =>
        have hred : Key.updateLabel store k lbl
            = (⟨store.nextTex + 1, old :: store.disposed⟩,
               { k with label := lbl, legendTex := some store.nextTex }) := by
          simp [Key.updateLabel, hlt]
        rw [hred]
        refine ⟨rfl, Nat.le_succ _, fun t ht => List.mem_cons_of_mem _ ht, ?_, ?_⟩
        · intro k2 hk2 t ht
          rcases List.mem_cons.mp hk2 with rfl | hk2
          · simp only [Option.some.injEq] at ht
            show t < store.nextTex + 1
            omega
          · exact Nat.lt_succ_of_lt (hfrest k2 hk2 t ht)
        · refine List.Forall₂.cons ⟨rfl, rfl, fun hne => absurd hc hne, ?_⟩ ?_
          · intro _ t ht
            rw [hlt, Option.some.injEq] at ht
            subst ht
            have hlt2 : old < store.nextTex := hfk old hlt
            refine ⟨List.mem_cons_self _ _, ?_, rfl⟩
            simp only [ne_eq, Option.some.injEq]
            omega
          · rw [List.forall₂_same]
            intro x hx
            exact ⟨rfl, rfl, fun _ => rfl, fun hxc => absurd hxc (hresttail x hx)⟩
    · simp only [updateKeyInMap, if_neg hc]
      obtain ⟨imap, inext, idisp, ifresh, ifa⟩ := ih hrestnodup hfrest
      refine ⟨by rw [List.map_cons, List.map_cons, imap], inext, idisp, ?_, ?_⟩
      · intro k2 hk2 t ht
        rcases List.mem_cons.mp hk2 with rfl | hk2
        · exact lt_of_lt_of_le (hfk t ht) inext
        · exact ifresh k2 hk2 t ht
      · exact List.Forall₂.cons
          ⟨rfl, rfl, fun _ => rfl, fun hkc => absurd hkc hc⟩ ifa

/-- The whole relabel loop over a duplicate-free target list: codes
preserved, disposals accumulate, freshness preserved; pointwise, geometry
and code untouched, non-targeted keys wholly untouched, targeted keys'
previously installed legend texture disposed and replaced by a distinct
fresh one. -/
theorem relabelFold_spec (cl : String) :
    ∀ (targets : List String) (store : TexStore) (keys : List KeyObj),
    targets.Nodup →
    (keys.map KeyObj.code).Nodup →
    (∀ k ∈ keys, ∀ t, k.legendTex = some t → t < store.nextTex) →
    ((relabelFold cl targets store keys).2.map KeyObj.code = keys.map KeyObj.code) ∧
    store.nextTex ≤ (relabelFold cl targets store keys).1.nextTex ∧
    (∀ t ∈ store.disposed, t ∈ (relabelFold cl targets store keys).1.disposed) ∧
    (∀ k2 ∈ (relabelFold cl targets store keys).2, ∀ t, k2.legendTex = some t →
        t < (relabelFold cl targets store keys).1.nextTex) ∧
    List.Forall₂ (fun k k2 =>
        k2.code = k.code ∧ k2.geomId = k.geomId ∧
        (k.code ∉ targets → k2 = k) ∧
        (k.code ∈ targets → ∀ t, k.legendTex = some t →
            t ∈ (relabelFold cl targets store keys).1.disposed ∧
            k2.legendTex ≠ some t ∧ k2.legendTex.isSome = true))
      keys (relabelFold cl targets store keys).2 := by
  intro targets
  induction targets with
  | nil =>
    intro store keys _ _ hfresh
    have hred : relabelFold cl [] store keys = (store, keys) := rfl
    rw [hred]
    refine ⟨rfl, le_refl _, fun t ht => ht, hfresh, ?_⟩
    rw [List.forall₂_same]
    intro x _
    exact ⟨rfl, rfl, fun _ => rfl, fun hmem => absurd hmem (List.not_mem_nil _)⟩
  | cons c cs ih =>
    intro store keys htnodup hnodup hfresh
    rw [List.nodup_cons] at htnodup
    obtain ⟨hcnot, hcsnodup⟩ := htnodup
    have hred : relabelFold cl (c :: cs) store keys
        = relabelFold cl cs
            (updateKeyInMap store keys c (getKeycapLabel cl c (layoutLabelOf c))).1
            (updateKeyInMap store keys c (getKeycapLabel cl c (layoutLabelOf c))).2 := rfl
    rw [hred]
    obtain ⟨pmap, pnext, pdisp, pfresh, pfa⟩ :=
      updateKeyInMap_spec store keys c (getKeycapLabel cl c (layoutLabelOf c))
        hnodup hfresh
    obtain ⟨imap, inext, idisp, ifresh, ifa⟩ :=
      ih (updateKeyInMap store keys c (getKeycapLabel cl c (layoutLabelOf c))).1
        (updateKeyInMap store keys c (getKeycapLabel cl c (layoutLabelOf c))).2
        hcsnodup (pmap ▸ hnodup) pfresh
    refine ⟨imap.trans pmap, le_trans pnext inext, fun t ht => idisp t (pdisp t ht),
      ifresh, ?_⟩
    rw [List.forall₂_iff_get] at pfa ifa ⊢
    obtain ⟨plen, pget⟩ := pfa
    obtain ⟨ilen, iget⟩ := ifa
    refine ⟨plen.trans ilen, ?_⟩
    intro i h1 h2
    have hmid : i < (updateKeyInMap store keys c
        (getKeycapLabel cl c (layoutLabelOf c))).2.length := plen ▸ h1
    obtain ⟨pcode, pgeom, puntouched, ptarget⟩ := pget i h1 hmid
    obtain ⟨icode, igeom, iuntouched, itarget⟩ := iget i hmid h2
    refine ⟨icode.trans pcode, igeom.trans pgeom, ?_, ?_⟩
    · intro hnot
      rw [List.mem_cons] at hnot
      push_neg at hnot
      have e1 := puntouched hnot.1
      have e2 := iuntouched (by rw [pcode]; exact hnot.2)
      rw [e2, e1]
    · intro hmem t ht
      rcases List.mem_cons.mp hmem with hm | hm
      · obtain ⟨hdisp1, hne1, hsome1⟩ := ptarget hm t ht
        have hcodemid : ((updateKeyInMap store keys c
            (getKeycapLabel cl c (layoutLabelOf c))).2.get ⟨i, hmid⟩).code ∉ cs := by
          rw [pcode, hm]
          exact hcnot
        have e2 := iuntouched hcodemid
        rw [e2]
        exact ⟨idisp t hdisp1, hne1, hsome1⟩
      · have hne : (keys.get ⟨i, h1⟩).code ≠ c := by
          intro heq
          exact hcnot (heq ▸ hm)
        have e1 := puntouched hne
        obtain ⟨hdisp2, hne2, hsome2⟩ :=
          itarget (by rw [pcode]; exact hm) t (by rw [e1]; exact ht)
        exact ⟨hdisp2, hne2, hsome2⟩

/-- C9: Relabel frame property.  For any assembly key map (distinct codes,
as in a `Map`) whose installed legend textures predate the texture counter,
`Keyboard.updateKeyLabels` leaves every key's keycap geometry object
reference unchanged, leaves every key whose code is not in `keysToUpdate`
(`MetaLeft`/`MetaRight`/`AltLeft`/`AltRight`) wholly unchanged, and for
each targeted key disposes the previously installed legend texture and
installs a new, distinct one. -/
theorem updateKeyLabels_frame (cl : String) (store : TexStore) (keys : List KeyObj)
    (hnodup : (keys.map KeyObj.code).Nodup)
    (hfresh : ∀ k ∈ keys, ∀ t, k.legendTex = some t → t < store.nextTex) :
    ((Keyboard.updateKeyLabels cl store keys).2.map KeyObj.geomId
        = keys.map KeyObj.geomId) ∧
    List.Forall₂ (fun k k2 =>
        k2.code = k.code ∧ k2.geomId = k.geomId ∧
        (k.code ∉ keysToUpdate → k2 = k) ∧
        (k.code ∈ keysToUpdate → ∀ t, k.legendTex = some t →
            t ∈ (Keyboard.updateKeyLabels cl store keys).1.disposed ∧
            k2.legendTex ≠ some t ∧ k2.legendTex.isSome = true))
      keys (Keyboard.updateKeyLabels cl store keys).2 := by
  have htargets : keysToUpdate.Nodup := by decide
  obtain ⟨-, -, -, -, hfa⟩ :=
    relabelFold_spec cl keysToUpdate store keys htargets hnodup hfresh
  refine ⟨?_, hfa⟩
  show (relabelFold cl keysToUpdate store keys).2.map KeyObj.geomId
      = keys.map KeyObj.geomId
  rw [List.forall₂_iff_get] at hfa
  obtain ⟨hlen, hget⟩ := hfa
  apply List.ext_get
  · simp [hlen]
  · intro i h1 h2
    rw [List.get_map, List.get_map]
    exact (hget i (by simpa using h2) (by simpa using h1)).2.1

set_option maxRecDepth 10000

/-- Witness for C9: the assembly built from the layout, relabeled to the
Windows key labels. -/
theorem updateKeyLabels_frame_witness :
    ((buildAssembly.2.map KeyObj.code).Nodup ∧
     (∀ k ∈ buildAssembly.2, ∀ t, k.legendTex = some t → t < buildAssembly.1.nextTex)) ∧
    (((Keyboard.updateKeyLabels "windows" buildAssembly.1 buildAssembly.2).2.map KeyObj.geomId
        = buildAssembly.2.map KeyObj.geomId) ∧
     List.Forall₂ (fun k k2 =>
        k2.code = k.code ∧ k2.geomId = k.geomId ∧
        (k.code ∉ keysToUpdate → k2 = k) ∧
        (k.code ∈ keysToUpdate → ∀ t, k.legendTex = some t →
            t ∈ (Keyboard.updateKeyLabels "windows" buildAssembly.1 buildAssembly.2).1.disposed ∧
            k2.legendTex ≠ some t ∧ k2.legendTex.isSome = true))
      buildAssembly.2
      (Keyboard.updateKeyLabels "windows" buildAssembly.1 buildAssembly.2).2) := by
  have h1 : (buildAssembly.2.map KeyObj.code).Nodup := by decide
  have h2 : ∀ k ∈ buildAssembly.2, ∀ t, k.legendTex = some t →
      t < buildAssembly.1.nextTex := by decide
  exact ⟨⟨h1, h2⟩,
    updateKeyLabels_frame "windows" buildAssembly.1 buildAssembly.2 h1 h2⟩

/-- C1: GeometryFactory determinism.  `createRealisticKeycapGeometry` is a
pure function of the key's code, the shape parameters and the input box
vertices: two calls with identical inputs yield identical vertex
positions (there is no randomness inside; the `Math.random()` in the `Key`
constructor only seeds the cycle-effect hue, not the geometry). -/
theorem createRealisticKeycapGeometry_deterministic
    (code code2 : String) (w w2 d d2 h h2 tp tp2 : ℝ)
    (verts verts2 : List (ℝ × ℝ × ℝ))
    (hc : code = code2) (hw : w = w2) (hd : d = d2) (hh : h = h2)
    (htp : tp = tp2) (hv : verts = verts2) :
    createRealisticKeycapGeometry code w d h tp verts
      = createRealisticKeycapGeometry code2 w2 d2 h2 tp2 verts2 := by
  subst hc hw hd hh htp hv
  rfl

/-- Witness for C1: the standard 1u dimensions, one sample vertex. -/
theorem createRealisticKeycapGeometry_deterministic_witness :
    (("KeyA" : String) = "KeyA" ∧ ((7 : ℝ)/400) = 7/400 ∧ ((1 : ℝ)/125) = 1/125 ∧
      ((3 : ℝ)/2000) = 3/2000 ∧ ([((0 : ℝ), (0 : ℝ), (0 : ℝ))]) = [((0 : ℝ), 0, 0)]) ∧
    createRealisticKeycapGeometry "KeyA" (7/400) (7/400) (1/125) (3/2000)
        [((0 : ℝ), 0, 0)]
      = createRealisticKeycapGeometry "KeyA" (7/400) (7/400) (1/125) (3/2000)
        [((0 : ℝ), 0, 0)] :=
  ⟨⟨rfl, rfl, rfl, rfl, rfl⟩,
   createRealisticKeycapGeometry_deterministic "KeyA" "KeyA" (7/400) (7/400)
     (7/400) (7/400) (1/125) (1/125) (3/2000) (3/2000)
     [((0 : ℝ), 0, 0)] [((0 : ℝ), 0, 0)] rfl rfl rfl rfl rfl rfl⟩
